import Mathlib

/-!
Verification development for the tenkit multi-tenant authentication core.

Go strings are modelled as lists of characters (`Str`).  The helper
functions below are shallow embeddings of the Go standard-library string
operations that the source uses (strings.Split with a one-character
separator, strings.HasSuffix, strings.TrimSuffix, strings.Index for the
port strip, strings.ToLower, strings.ReplaceAll with the empty
replacement, strings.TrimSpace).
-/

abbrev Str := List Char

/-- Go strings.Split with a single-character separator: one piece per
separator occurrence, empty pieces preserved. -/
def goSplit (sep : Char) : Str → List Str
  | [] => [[]]
  | c :: cs =>
    if c = sep then [] :: goSplit sep cs
    else
      match goSplit sep cs with
      | [] => [[c]]
      | p :: ps => (c :: p) :: ps

/-- Go strings.HasSuffix. -/
def goHasSuffix (s suf : Str) : Bool := suf.isSuffixOf s

/-- Go strings.TrimSuffix: removes one copy of the suffix when present. -/
def goTrimSuffix (s suf : Str) : Str :=
  if goHasSuffix s suf then s.take (s.length - suf.length) else s

/-- Go host[:strings.Index(host, c)] when the character occurs, host
otherwise; used for the port strip in the resolver.  Taking the slice up
to the first occurrence equals taking the longest occurrence-free leading
segment. -/
def goCutAtChar (c : Char) : Str → Str
  | [] => []
  | x :: xs => if x = c then [] else x :: goCutAtChar c xs

/-- Go strings.ToLower restricted to the ASCII casing the code relies on. -/
def goToLower (s : Str) : Str := s.map Char.toLower

/-- Go strings.ReplaceAll s old "" for a one-character old value: drops
every occurrence of the character. -/
def goDropChar (c : Char) (s : Str) : Str := s.filter (fun x => ¬ x = c)

/-- Go strings.TrimSpace. -/
def goTrimSpace (s : Str) : Str :=
  ((s.dropWhile Char.isWhitespace).reverse.dropWhile Char.isWhitespace).reverse

/-!
## Tenant resolver

Shallow embedding of SubdomainResolver.Resolve from
multitenant/interfaces.go.  The request host is passed directly; the
configured root domain comes from Config.Domain.
-/

/-- Failure value of the resolver (fmt.Errorf("invalid domain: %s", host)). -/
inductive DomainErr where
  | invalidDomain (host : Str)
  deriving Repr, DecidableEq

/-- SubdomainResolver.Resolve from multitenant/interfaces.go: strip an
optional port, demand the host be the root domain, www.root, or a
dot-separated suffix of root, and return the lowercased remainder
(with one trailing dot trimmed) as the candidate slug. -/
def Resolve (domain : Str) (rawHost : Str) : Except DomainErr Str :=
  let host := goCutAtChar ':' rawHost
  if ¬ goHasSuffix host ('.' :: domain) ∧ ¬ host = domain ∧
      ¬ host = ('w' :: 'w' :: 'w' :: '.' :: domain) then
    .error (.invalidDomain host)
  else if host = domain ∨ host = ('w' :: 'w' :: 'w' :: '.' :: domain) then
    .ok []
  else
    let sub := goTrimSuffix host ('.' :: domain)
    .ok (goToLower (goTrimSuffix sub ['.']))

/-!
## Decimal formatting and parsing

The token codec serializes the expiry with fmt's %d and reads it back
with strconv.ParseInt(s, 10, 64).
-/

def digitToChar (d : Nat) : Char := Char.ofNat (48 + d)

def charToDigit (c : Char) : Nat := c.toNat - 48

def isDigitChar (c : Char) : Bool := decide (48 ≤ c.toNat ∧ c.toNat ≤ 57)

/-- Fuel-bounded digit emitter behind natToStr; fuel at least n + 1
always suffices because the argument shrinks by a factor of ten. -/
def natToStrGo (fuel n : Nat) : Str :=
  match fuel with
  | 0 => []
  | fuel + 1 =>
    if n < 10 then [digitToChar n]
    else natToStrGo fuel (n / 10) ++ [digitToChar (n % 10)]

/-- Decimal rendering of a natural number, most significant digit first. -/
def natToStr (n : Nat) : Str := natToStrGo (n + 1) n

/-- strconv-style parse of an unsigned decimal string. -/
def parseNat (s : Str) : Option Nat :=
  if s ≠ [] ∧ s.all isDigitChar then
    some (Nat.ofDigits 10 ((s.map charToDigit).reverse))
  else none

/-- fmt %d rendering of an int64 value. -/
def intToStr (i : Int) : Str :=
  if i < 0 then '-' :: natToStr i.natAbs else natToStr i.toNat

/-- strconv.ParseInt(s, 10, 64) modulo the unused 64-bit range check:
an optional sign followed by decimal digits. -/
def parseInt (s : Str) : Option Int :=
  match s with
  | [] => none
  | c :: rest =>
    if c = '-' then (parseNat rest).map (fun n => -(n : Int))
    else if c = '+' then (parseNat rest).map (fun n => (n : Int))
    else (parseNat (c :: rest)).map (fun n => (n : Int))

/-!
## Signed token codec (multitenant/utils/token.go)

base64.URLEncoding and the HMAC-SHA256 keyed by the package secret are
external collaborators; the codec is parametrized over the encoder, its
decoder, and the mac, exactly at the call sites the Go code uses them.
GenerateSignupToken builds payload "email|org|expUnix", appends
enc(mac(payload)) after a dot; ValidateSignupToken splits on the dot,
recomputes the mac over the decoded payload, compares (hmac.Equal),
splits the payload on the pipe, parses the trailing expiry and rejects
when now > exp.
-/

def GenerateSignupToken (enc mac : Str → Str) (email org : Str) (expUnix : Int) : Str :=
  let payload := email ++ '|' :: org ++ '|' :: intToStr expUnix
  enc payload ++ '.' :: enc (mac payload)

def ValidateSignupToken (dec mac : Str → Str) (nowUnix : Int) (token : Str) :
    Option (Str × Str) :=
  match goSplit '.' token with
  | [p0, p1] =>
    let payloadBytes := dec p0
    let sigBytes := dec p1
    if mac payloadBytes = sigBytes then
      match goSplit '|' payloadBytes with
      | [email, org, expStr] =>
        match parseInt expStr with
        | some exp => if nowUnix > exp then none else some (email, org)
        | none => none
      | _ => none
    else none
  | _ => none

/-!
## Store model

Rows of the sqlite schema the handlers touch, plus a deterministic
auto-increment counter per table standing for LastInsertId.
-/

structure PendingUser where
  token : Str
  email : Str
  tenantId : Int
  passwordHash : Str
  expiresAt : Int
  deriving DecidableEq, Repr

structure PendingTenant where
  token : Str
  email : Str
  orgName : Str
  passwordHash : Str
  expiresAt : Int
  deriving DecidableEq, Repr

structure UserRow where
  id : Int
  email : Str
  passwordHash : Str
  isVerified : Bool
  tenantId : Int
  role : Str
  deriving DecidableEq, Repr

structure TenantRow where
  id : Int
  name : Str
  slug : Str
  subdomain : Str
  email : Str
  isActive : Bool
  allowSignins : Bool
  isDeleted : Bool
  deriving DecidableEq, Repr

structure MembershipRow where
  userId : Int
  tenantId : Int
  role : Str
  isActive : Bool
  deriving DecidableEq, Repr

structure SessionRow where
  token : Str
  userId : Int
  tenantId : Int
  expiresAt : Int
  deriving DecidableEq, Repr

structure DB where
  pendingUsers : List PendingUser
  pendingTenants : List PendingTenant
  users : List UserRow
  tenants : List TenantRow
  memberships : List MembershipRow
  sessions : List SessionRow
  nextUserId : Int
  nextTenantId : Int
  deriving DecidableEq, Repr

/-- Store-level failure of a single statement; the sqlite driver lets
callers distinguish a uniqueness-constraint violation from other errors,
so the model keeps that distinction in the injected fault. -/
inductive StoreErr where
  | uniqueViolation
  | otherErr
  deriving DecidableEq, Repr

/-- Result of a QueryRow().Scan(): a row, sql.ErrNoRows, or another error. -/
inductive QR (α : Type) where
  | row (a : α)
  | noRows
  | err (e : StoreErr)
  deriving DecidableEq

/-- Combines an injected fault with the rows the healthy store would
return, giving the three-way Scan result the code branches on. -/
def qRes {α : Type} (inj : Option StoreErr) (res : Option α) : QR α :=
  match inj with
  | some e => .err e
  | none =>
    match res with
    | some a => .row a
    | none => .noRows

/-!
## models layer (sessions and users)
-/

/-- models.GetSession: joins sessions to users, requires expires_at > now. -/
def GetSession (st : DB) (now : Int) (token : Str) : Option UserRow :=
  match st.sessions.find? (fun s => s.token == token && decide (s.expiresAt > now)) with
  | none => none
  | some s => st.users.find? (fun u => u.id == s.userId)

/-- models.GetUserByEmailAndTenant: email and tenant filter plus
is_verified = 1. -/
def GetUserByEmailAndTenant (st : DB) (email : Str) (tenantId : Int) : Option UserRow :=
  st.users.find? (fun u => u.email == email && u.tenantId == tenantId && u.isVerified)

/-- models.CreateSession: generates a random token (passed in as
randToken), inserts the session row with a 24h expiry, and returns the
token.  A failing insert is only logged: the token is returned all the
same, which is the behavior under scrutiny in the spec's error-handling
policy. -/
def CreateSession (randToken : Str) (insertFails : Bool) (now : Int)
    (userId tenantId : Int) (st : DB) : Str × DB :=
  if insertFails then (randToken, st)
  else (randToken,
    { st with sessions := st.sessions ++ [(⟨randToken, userId, tenantId, now + 86400⟩ : SessionRow)] })

/-!
## Provisioning (handlers/confirm.go ConfirmHandler)

The handler runs inside one database transaction with a deferred
Rollback; an early return before Commit leaves the store untouched.
Injected faults are keyed by statement call site.
-/

inductive ConfirmOp where
  | begin
  | qPendingUser
  | qUserExists
  | delPendingUserDup
  | commitUserDup
  | insUser
  | userLastId
  | insMembership
  | delPendingUser
  | commitUser
  | qPendingTenant
  | qUserExists2
  | delPendingTenantDup
  | commitTenantDup
  | qSubdomain
  | delPendingTenantSub
  | commitTenantSub
  | insTenant
  | tenantLastId
  | insUser2
  | userLastId2
  | insMembership2
  | delPendingTenant
  | commitTenant
  deriving DecidableEq, Repr

/-- Fault schedule: which statements fail, and how. -/
abbrev Sched := ConfirmOp → Option StoreErr

/-- The schedule of a healthy store. -/
def cleanSched : Sched := fun _ => none

/-- User-visible outcome of ConfirmHandler, named after the i18n keys it
renders (confirm.error.missing_token, confirm.error.internal,
confirm.error.invalid_token, confirm.error.already_registered,
confirm.error.subdomain_exists, confirm.success.user,
confirm.success.tenant). -/
inductive ConfirmOutcome where
  | missingToken
  | internal
  | invalidToken
  | alreadyRegistered
  | subdomainExists
  | successUser
  | successTenant
  deriving DecidableEq, Repr

/-- Context tenant as attached by the middleware (multitenant.Tenant). -/
structure Tenant where
  id : Int
  subdomain : Str
  name : Str
  deriving DecidableEq, Repr

/-- User-signup branch of ConfirmHandler (steps 5-12), entered when the
pending_user_signups lookup returned a row and the request is on a
tenant domain. -/
def confirmUserBranch (sched : Sched) (st : DB) (token : Str)
    (ctxTenant : Option Tenant) (p : PendingUser) : ConfirmOutcome × DB :=
  match ctxTenant with
  | none => (.invalidToken, st)
  | some t =>
    if ¬ t.id = p.tenantId then (.invalidToken, st)
    else
      match qRes (sched .qUserExists) (st.users.find? (fun u => u.email == p.email)) with
      | .row _ =>
        let tx := if (sched .delPendingUserDup).isSome then st
          else { st with pendingUsers := st.pendingUsers.filter (fun q => ¬ q.token == token) }
        let fin := if (sched .commitUserDup).isSome then st else tx
        (.alreadyRegistered, fin)
      | .err _ => (.internal, st)
      | .noRows =>
        match sched .insUser with
        | some _ => (.internal, st)
        | none =>
          let uid := st.nextUserId
          let tx := { st with
            users := st.users ++ [(⟨uid, p.email, p.passwordHash, true, p.tenantId, "member".toList⟩ : UserRow)],
            nextUserId := uid + 1 }
          match sched .userLastId with
          | some _ => (.internal, st)
          | none =>
            match sched .insMembership with
            | some _ => (.internal, st)
            | none =>
              let tx := { tx with
                memberships := tx.memberships ++ [(⟨uid, p.tenantId, "member".toList, true⟩ : MembershipRow)] }
              let tx := if (sched .delPendingUser).isSome then tx
                else { tx with
                  pendingUsers := tx.pendingUsers.filter (fun q => ¬ q.token == token) }
              match sched .commitUser with
              | some _ => (.internal, st)
              | none => (.successUser, tx)

/-- Tenant-signup branch of ConfirmHandler (steps 14-23), entered when
the pending_tenant_signups lookup returned a row and the request is on
the marketing domain. -/
def confirmTenantBranch (sched : Sched) (st : DB) (token : Str)
    (p : PendingTenant) : ConfirmOutcome × DB :=
  match qRes (sched .qUserExists2) (st.users.find? (fun u => u.email == p.email)) with
  | .row _ =>
    let tx := if (sched .delPendingTenantDup).isSome then st
      else { st with pendingTenants := st.pendingTenants.filter (fun q => ¬ q.token == token) }
    let fin := if (sched .commitTenantDup).isSome then st else tx
    (.alreadyRegistered, fin)
  | .err _ => (.internal, st)
  | .noRows =>
    let subdomain := goToLower (goDropChar ' ' p.orgName)
    match qRes (sched .qSubdomain) (st.tenants.find? (fun t => t.subdomain == subdomain)) with
    | .row _ =>
      let tx := if (sched .delPendingTenantSub).isSome then st
        else { st with pendingTenants := st.pendingTenants.filter (fun q => ¬ q.token == token) }
      let fin := if (sched .commitTenantSub).isSome then st else tx
      (.subdomainExists, fin)
    | .err _ => (.internal, st)
    | .noRows =>
      match sched .insTenant with
      | some _ => (.internal, st)
      | none =>
        let tid := st.nextTenantId
        let tx := { st with
          tenants := st.tenants ++
            [(⟨tid, p.orgName, subdomain, subdomain, p.email, true, true, false⟩ : TenantRow)],
          nextTenantId := tid + 1 }
        match sched .tenantLastId with
        | some _ => (.internal, st)
        | none =>
          match sched .insUser2 with
          | some _ => (.internal, st)
          | none =>
            let uid := tx.nextUserId
            let tx := { tx with
              users := tx.users ++ [(⟨uid, p.email, p.passwordHash, true, tid, "admin".toList⟩ : UserRow)],
              nextUserId := uid + 1 }
            match sched .userLastId2 with
            | some _ => (.internal, st)
            | none =>
              match sched .insMembership2 with
              | some _ => (.internal, st)
              | none =>
                let tx := { tx with
                  memberships := tx.memberships ++ [(⟨uid, tid, "admin".toList, true⟩ : MembershipRow)] }
                let tx := if (sched .delPendingTenant).isSome then tx
                  else { tx with
                    pendingTenants := tx.pendingTenants.filter (fun q => ¬ q.token == token) }
                match sched .commitTenant with
                | some _ => (.internal, st)
                | none => (.successTenant, tx)

/-- handlers/confirm.go ConfirmHandler, from the token-extraction step
on.  Returns the rendered outcome together with the committed store
state (early returns fire the deferred Rollback, leaving the original
state). -/
def ConfirmHandler (sched : Sched) (st : DB) (now : Int) (token : Str)
    (isTenantRequest : Bool) (ctxTenant : Option Tenant) : ConfirmOutcome × DB :=
  if token = [] then (.missingToken, st)
  else
    match sched .begin with
    | some _ => (.internal, st)
    | none =>
      match qRes (sched .qPendingUser)
          (st.pendingUsers.find? (fun p => p.token == token && decide (p.expiresAt > now))) with
      | .row p =>
        if isTenantRequest then confirmUserBranch sched st token ctxTenant p
        else (.invalidToken, st)
      | .err _ => (.invalidToken, st)
      | .noRows =>
        match qRes (sched .qPendingTenant)
            (st.pendingTenants.find? (fun p => p.token == token && decide (p.expiresAt > now))) with
        | .row p =>
          if ¬ isTenantRequest then confirmTenantBranch sched st token p
          else (.invalidToken, st)
        | .err _ => (.invalidToken, st)
        | .noRows => (.invalidToken, st)

/-!
## Request security pipeline (example/main.go middleware chain)

Each middleware wraps the next handler exactly as in the Go sources; the
chain records, per request, the order in which stages run, the cookies
each stage sets, and the context the innermost handler finally receives.
-/

/-- models.User as carried in the request context by the session and
logger middlewares (reusing the users-table row shape). -/
structure Ctx where
  csrf : Option Str
  tenant : Option Tenant
  isTenant : Option Bool
  userId : Option Int
  user : Option UserRow
  lang : Option Str
  deriving DecidableEq, Repr

/-- The empty request context. -/
def Ctx.empty : Ctx := ⟨none, none, none, none, none, none⟩

/-- An inbound HTTP request as the middlewares consult it. -/
structure Request where
  method : Str
  host : Str
  cookies : List (Str × Str)
  headers : List (Str × Str)
  form : List (Str × Str)
  deriving DecidableEq, Repr

/-- Go r.Cookie(name): the first cookie with that name, or an error. -/
def lookupCookie (req : Request) (name : Str) : Option Str :=
  (req.cookies.find? (fun c => c.1 == name)).map (fun c => c.2)

/-- Go r.Header.Get(name): empty string when absent. -/
def headerGet (req : Request) (name : Str) : Str :=
  ((req.headers.find? (fun h => h.1 == name)).map (fun h => h.2)).getD []

/-- Go r.FormValue(name) after ParseForm: first form (body or query)
value, empty string when absent.  Headers are not consulted. -/
def formValue (req : Request) (name : Str) : Str :=
  ((req.form.find? (fun f => f.1 == name)).map (fun f => f.2)).getD []

/-- Pipeline stages, in the roles the spec names. -/
inductive Stage where
  | logger
  | csrf
  | session
  | tenant
  | lang
  deriving DecidableEq, Repr

/-- Observable steps of one request's trip through the chain. -/
inductive Event where
  | stage (s : Stage)
  | setCookie (name value : Str) (maxAge : Int)
  | handler (ctx : Ctx)
  deriving DecidableEq, Repr

/-- A handler: consumes the context built so far and the request, extends
the event trace, and either halts with an HTTP status or completes. -/
abbrev Handler := Ctx → Request → List Event → List Event × Option Nat

/-- The innermost application handler: records the context it was handed. -/
def appHandler : Handler := fun ctx _ evs => (evs ++ [.handler ctx], none)

/-- middleware/csrf.go CSRFMiddleware.  genToken stands for the CSPRNG
token mint (none = generation failure, answered with a 500); parseFormOk
models whether r.ParseForm succeeds on the request body.  For POST, PUT
and DELETE the submitted token is read from the parsed form only and
compared with subtle.ConstantTimeCompare against the cookie token. -/
def CSRFMiddleware (genToken : Option Str) (parseFormOk : Bool)
    (next : Handler) : Handler := fun ctx req evs =>
  let evs := evs ++ [.stage .csrf]
  let cookieVal := lookupCookie req "csrf_token".toList
  match if cookieVal = none ∨ cookieVal = some [] then none else cookieVal with
  | none =>
    match genToken with
    | none => (evs, some 500)
    | some token =>
      let evs := evs ++ [.setCookie "csrf_token".toList token 0]
      let ctx := { ctx with csrf := some token }
      if req.method = "POST".toList ∨ req.method = "PUT".toList ∨
          req.method = "DELETE".toList then
        if ¬ parseFormOk then (evs, some 400)
        else
          let formToken := formValue req "csrf_token".toList
          if formToken = [] then (evs, some 403)
          else if ¬ (token = formToken) then (evs, some 403)
          else next ctx req evs
      else next ctx req evs
  | some token =>
    let ctx := { ctx with csrf := some token }
    if req.method = "POST".toList ∨ req.method = "PUT".toList ∨
        req.method = "DELETE".toList then
      if ¬ parseFormOk then (evs, some 400)
      else
        let formToken := formValue req "csrf_token".toList
        if formToken = [] then (evs, some 403)
        else if ¬ (token = formToken) then (evs, some 403)
        else next ctx req evs
    else next ctx req evs

/-- middleware/session.go SessionMiddleware: resolves the session cookie
through models.GetSession, applies the tenant-binding check against the
tenant already in the context, clears the cookie on an invalid session
or on a tenant mismatch, and otherwise attaches user id and user. -/
def SessionMiddleware (sessName : Str) (st : DB) (now : Int)
    (next : Handler) : Handler := fun ctx req evs =>
  let evs := evs ++ [.stage .session]
  match lookupCookie req sessName with
  | some v =>
    if ¬ v = [] then
      match GetSession st now v with
      | some user =>
        match ctx.tenant with
        | some t =>
          if ¬ user.tenantId = t.id then
            let evs := evs ++ [.setCookie sessName [] (-1)]
            next ctx req evs
          else
            next { ctx with userId := some user.id, user := some user } req evs
        | none =>
          next { ctx with userId := some user.id, user := some user } req evs
      | none =>
        let evs := evs ++ [.setCookie sessName [] (-1)]
        next ctx req evs
    else next ctx req evs
  | none => next ctx req evs

/-- models.GetTenantBySubdomain as consumed through DBFetcher.Fetch:
only active, non-deleted tenants are visible. -/
def GetTenantBySubdomain (st : DB) (sub : Str) : Option TenantRow :=
  st.tenants.find? (fun t => t.subdomain == sub && t.isActive && !t.isDeleted)

/-- middleware TenantMiddleware: resolve the host, 404 on a resolution
error, mark root requests, fetch the tenant for a subdomain and 404 when
it is unknown or inactive, otherwise attach it to the context. -/
def TenantMiddleware (domain : Str) (st : DB) (next : Handler) : Handler :=
  fun ctx req evs =>
  let evs := evs ++ [.stage .tenant]
  match Resolve domain req.host with
  | .error _ => (evs, some 404)
  | .ok sub =>
    if sub = [] then next { ctx with isTenant := some false } req evs
    else
      match GetTenantBySubdomain st sub with
      | none => (evs, some 404)
      | some t =>
        next { ctx with tenant := some ⟨t.id, t.subdomain, t.name⟩,
                        isTenant := some true } req evs

/-- Accept-Language scan of middleware LangMiddleware: first listed
language present in the translations, falling back to its base tag. -/
def pickLang (translations : List Str) : List Str → Option Str
  | [] => none
  | l :: rest =>
    let l := goTrimSpace ((goSplit ';' l).headD [])
    if translations.contains l then some l
    else
      let base := (goSplit '-' l).headD []
      if ¬ base = l ∧ translations.contains base then some base
      else pickLang translations rest

/-- middleware LangMiddleware (the I18nProvider variant wired up in
example/main.go): lang cookie when set and known, otherwise the
Accept-Language header scan, otherwise the configured default. -/
def LangMiddleware (defaultLang : Str) (translations : List Str)
    (next : Handler) : Handler := fun ctx req evs =>
  let evs := evs ++ [.stage .lang]
  let lang :=
    match lookupCookie req "lang".toList with
    | some v =>
      if ¬ v = [] then
        if translations.contains v then v else defaultLang
      else
        defaultLang
    | none =>
      let accept := headerGet req "Accept-Language".toList
      if ¬ accept = [] then (pickLang translations (goSplit ',' accept)).getD defaultLang
      else defaultLang
  next { ctx with lang := some lang } req evs

/-- middleware/http_logger.go Logger: besides timing the request it
pre-loads the user from the session cookie into the context when
models.GetSession succeeds. -/
def Logger (sessName : Str) (st : DB) (now : Int) (next : Handler) : Handler :=
  fun ctx req evs =>
  let evs := evs ++ [.stage .logger]
  let ctx :=
    match lookupCookie req sessName with
    | some v =>
      match GetSession st now v with
      | some user => { ctx with user := some user }
      | none => ctx
    | none => ctx
  next ctx req evs

/-- The example/main.go middleware chain, wrapped bottom-up exactly as in
the source: handler = Lang(mux); handler = Tenant(handler); handler =
Session(handler); handler = CSRF(handler); handler = Logger(handler). -/
def exampleChain (domain sessName defaultLang : Str) (translations : List Str)
    (st : DB) (now : Int) (genToken : Option Str) (parseFormOk : Bool) : Handler :=
  Logger sessName st now
    (CSRFMiddleware genToken parseFormOk
      (SessionMiddleware sessName st now
        (TenantMiddleware domain st
          (LangMiddleware defaultLang translations appHandler))))

/-- Runs one request through the example chain from an empty context. -/
def runChain (domain sessName defaultLang : Str) (translations : List Str)
    (st : DB) (now : Int) (genToken : Option Str) (parseFormOk : Bool)
    (req : Request) : List Event × Option Nat :=
  exampleChain domain sessName defaultLang translations st now genToken parseFormOk
    Ctx.empty req []

/-- The stages a finished trace visited, in execution order. -/
def stagesOf (evs : List Event) : List Stage :=
  evs.filterMap (fun e => match e with | .stage s => some s | _ => none)

/-!
## Login (LoginHandler POST flow and CreateSession)
-/

/-- User-visible outcome of LoginHandler, one constructor per rendered
response: redirect to the default tenant login (marketing domain), 404
missing tenant context, the GET form, 400 invalid form / missing fields,
500 internal store error, 401 invalid credentials, and the successful
303 redirect to /dashboard that sets the session cookie. -/
inductive LoginOutcome where
  | redirectTenantLogin
  | tenantMissing
  | renderForm
  | invalidForm
  | missingFields
  | internalErr
  | invalidCreds
  | loggedIn (cookieName cookieValue : Str)
  deriving DecidableEq, Repr

/-- handlers LoginHandler: bcrypt.CompareHashAndPassword is the verify
collaborator; randToken stands for the CSPRNG session token;
userLookupErr injects a store failure into GetUserByEmailAndTenant;
sessionInsertFails injects one into the session INSERT inside
CreateSession. -/
def LoginHandler (sessName : Str) (verify : Str → Str → Bool) (randToken : Str)
    (userLookupErr sessionInsertFails : Bool) (st : DB) (now : Int)
    (isTenantRequest : Bool) (ctxTenant : Option Tenant) (method : Str)
    (parseFormOk : Bool) (emailRaw pass : Str) : LoginOutcome × DB :=
  if ¬ isTenantRequest then (.redirectTenantLogin, st)
  else
    match ctxTenant with
    | none => (.tenantMissing, st)
    | some t =>
      if method = "GET".toList then (.renderForm, st)
      else if ¬ parseFormOk then (.invalidForm, st)
      else
        let email := goToLower (goTrimSpace emailRaw)
        if email = [] ∨ pass = [] then (.missingFields, st)
        else if userLookupErr then (.internalErr, st)
        else
          match GetUserByEmailAndTenant st email t.id with
          | none => (.invalidCreds, st)
          | some user =>
            if ¬ verify user.passwordHash pass then (.invalidCreds, st)
            else
              let res := CreateSession randToken sessionInsertFails now
                user.id user.tenantId st
              (.loggedIn sessName res.1, res.2)

/-!
## Helper lemmas about the Go string primitives
-/

theorem goSplit_ne_nil (sep : Char) (s : Str) : goSplit sep s ≠ [] := by
  induction s with
  | nil => simp [goSplit]
  | cons c cs ih =>
    by_cases h : c = sep
    · simp [goSplit, h]
    · simp only [goSplit, if_neg h]
      cases hs : goSplit sep cs with
      | nil => simp
      | cons p ps => simp

theorem goSplit_no_sep {sep : Char} {s : Str} (h : sep ∉ s) :
    goSplit sep s = [s] := by
  induction s with
  | nil => rfl
  | cons c cs ih =>
    have hc : ¬ c = sep := by
      intro hcs; exact h (hcs ▸ List.mem_cons_self c cs)
    have hcs : sep ∉ cs := fun hm => h (List.mem_cons_of_mem c hm)
    simp only [goSplit, if_neg hc, ih hcs]

theorem goSplit_append_sep {sep : Char} {a : Str} (b : Str) (h : sep ∉ a) :
    goSplit sep (a ++ sep :: b) = a :: goSplit sep b := by
  induction a with
  | nil => simp [goSplit]
  | cons c cs ih =>
    have hc : ¬ c = sep := by
      intro hcs; exact h (hcs ▸ List.mem_cons_self c cs)
    have hcs : sep ∉ cs := fun hm => h (List.mem_cons_of_mem c hm)
    simp only [List.cons_append, goSplit, if_neg hc]
    rw [show cs.append (sep :: b) = cs ++ sep :: b from rfl, ih hcs]

theorem goTrimSuffix_append (a suf : Str) :
    goTrimSuffix (a ++ suf) suf = a := by
  have hsuf : goHasSuffix (a ++ suf) suf = true := by
    simp [goHasSuffix, List.isSuffixOf_iff_suffix]
  simp [goTrimSuffix, hsuf, List.take_append_of_le_length]

theorem goTrimSuffix_of_not_suffix {a suf : Str} (h : goHasSuffix a suf = false) :
    goTrimSuffix a suf = a := by
  simp [goTrimSuffix, h]

theorem goCutAtChar_of_not_mem {c : Char} {s : Str} (h : c ∉ s) :
    goCutAtChar c s = s := by
  induction s with
  | nil => rfl
  | cons x xs ih =>
    have hx : ¬ x = c := fun hxc => h (hxc ▸ List.mem_cons_self x xs)
    have hxs : c ∉ xs := fun hm => h (List.mem_cons_of_mem x hm)
    simp [goCutAtChar, hx, ih hxs]

theorem goCutAtChar_append {c : Char} {a : Str} (b : Str) (h : c ∉ a) :
    goCutAtChar c (a ++ c :: b) = a := by
  induction a with
  | nil => simp [goCutAtChar]
  | cons x xs ih =>
    have hx : ¬ x = c := fun hxc => h (hxc ▸ List.mem_cons_self x xs)
    have hxs : c ∉ xs := fun hm => h (List.mem_cons_of_mem x hm)
    simp [goCutAtChar, hx, ih hxs]

/-!
## Claim C7: subdomain resolution
-/

/-- Claim C7: for every host of the form slug.root (optionally with a
port suffix, slug drawn from the label alphabet and distinct from the
www carve-out), Resolve returns the lowercased slug with no error; for
the root domain and www.root it returns the empty slug; and every other
host — in particular one that merely ends with the root string without a
dot separator — is rejected with the domain-mismatch error. -/
theorem claim_C7_resolver (domain slug port host : Str)
    (hcd : ':' ∉ domain) (hcs : ':' ∉ slug)
    (hdot : goHasSuffix slug ['.'] = false)
    (hwww : ¬ slug = ['w', 'w', 'w'])
    (hh1 : goHasSuffix (goCutAtChar ':' host) ('.' :: domain) = false)
    (hh2 : ¬ goCutAtChar ':' host = domain)
    (hh3 : ¬ goCutAtChar ':' host = 'w' :: 'w' :: 'w' :: '.' :: domain) :
    Resolve domain (slug ++ '.' :: domain) = .ok (goToLower slug) ∧
    Resolve domain ((slug ++ '.' :: domain) ++ ':' :: port) = .ok (goToLower slug) ∧
    Resolve domain domain = .ok [] ∧
    Resolve domain ('w' :: 'w' :: 'w' :: '.' :: domain) = .ok [] ∧
    Resolve domain host = .error (.invalidDomain (goCutAtChar ':' host)) := by
  have hmem : ':' ∉ slug ++ '.' :: domain := by
    intro hm
    rcases List.mem_append.mp hm with h | h
    · exact hcs h
    · rcases List.mem_cons.mp h with h | h
      · exact absurd h (by decide)
      · exact hcd h
  have hcut1 : goCutAtChar ':' (slug ++ '.' :: domain) = slug ++ '.' :: domain :=
    goCutAtChar_of_not_mem hmem
  have hcut2 : goCutAtChar ':' (slug ++ '.' :: (domain ++ ':' :: port)) =
      slug ++ '.' :: domain := by
    have hassoc : slug ++ '.' :: (domain ++ ':' :: port) =
        (slug ++ '.' :: domain) ++ ':' :: port := by simp
    rw [hassoc]
    exact goCutAtChar_append port hmem
  have hsuf : goHasSuffix (slug ++ '.' :: domain) ('.' :: domain) = true := by
    simp [goHasSuffix, List.isSuffixOf_iff_suffix]
  have hne1 : ¬ (slug ++ '.' :: domain = domain) := by
    intro he
    have hlen := congrArg List.length he
    simp at hlen
    omega
  have hne2 : ¬ (slug ++ '.' :: domain = 'w' :: 'w' :: 'w' :: '.' :: domain) := by
    intro he
    apply hwww
    have he2 : slug ++ '.' :: domain = ['w', 'w', 'w'] ++ '.' :: domain := by
      simpa using he
    exact List.append_cancel_right he2
  have htrim1 : goTrimSuffix (slug ++ '.' :: domain) ('.' :: domain) = slug :=
    goTrimSuffix_append slug ('.' :: domain)
  have htrim2 : goTrimSuffix slug ['.'] = slug :=
    goTrimSuffix_of_not_suffix hdot
  have hcutd : goCutAtChar ':' domain = domain := goCutAtChar_of_not_mem hcd
  have hmemw : ':' ∉ ('w' :: 'w' :: 'w' :: '.' :: domain) := by
    intro hm
    rcases List.mem_cons.mp hm with h | h
    · exact absurd h (by decide)
    · rcases List.mem_cons.mp h with h | h
      · exact absurd h (by decide)
      · rcases List.mem_cons.mp h with h | h
        · exact absurd h (by decide)
        · rcases List.mem_cons.mp h with h | h
          · exact absurd h (by decide)
          · exact hcd h
  have hcutw : goCutAtChar ':' ('w' :: 'w' :: 'w' :: '.' :: domain) =
      'w' :: 'w' :: 'w' :: '.' :: domain := goCutAtChar_of_not_mem hmemw
  refine ⟨?_, ?_, ?_, ?_, ?_⟩
  · simp [Resolve, hcut1, hsuf, hne1, hne2, htrim1, htrim2]
  · simp [Resolve, hcut2, hsuf, hne1, hne2, htrim1, htrim2]
  · simp [Resolve, hcutd]
  · simp [Resolve, hcutw]
  · simp [Resolve, hh1, hh2, hh3]

/-- Witness for claim C7 at a concrete configuration: root example.com,
mixed-case slug Acme, port 8080, and the host-header confusion host
evilexample.com which ends with the root string but is not a subdomain. -/
theorem claim_C7_resolver_witness :
    Resolve "example.com".toList ("Acme".toList ++ '.' :: "example.com".toList) =
      .ok (goToLower "Acme".toList) ∧
    Resolve "example.com".toList
        (("Acme".toList ++ '.' :: "example.com".toList) ++ ':' :: "8080".toList) =
      .ok (goToLower "Acme".toList) ∧
    Resolve "example.com".toList "example.com".toList = .ok [] ∧
    Resolve "example.com".toList ('w' :: 'w' :: 'w' :: '.' :: "example.com".toList) =
      .ok [] ∧
    Resolve "example.com".toList "evilexample.com".toList =
      .error (.invalidDomain (goCutAtChar ':' "evilexample.com".toList)) :=
  claim_C7_resolver "example.com".toList "Acme".toList "8080".toList
    "evilexample.com".toList (by decide) (by decide) (by decide) (by decide)
    (by decide) (by decide) (by decide)

/-!
## Decimal round-trip lemmas
-/

theorem digitToChar_facts :
    ∀ d < 10, isDigitChar (digitToChar d) = true ∧
      charToDigit (digitToChar d) = d := by decide

theorem natToStrGo_spec :
    ∀ fuel n, n < fuel →
      natToStrGo fuel n ≠ [] ∧
      (natToStrGo fuel n).all isDigitChar = true ∧
      Nat.ofDigits 10 (((natToStrGo fuel n).map charToDigit).reverse) = n := by
  intro fuel
  induction fuel with
  | zero => intro n hn; omega
  | succ fuel ih =>
    intro n hn
    by_cases hsmall : n < 10
    · refine ⟨by simp [natToStrGo, hsmall], ?_, ?_⟩
      · simp [natToStrGo, hsmall, (digitToChar_facts n hsmall).1]
      · simp [natToStrGo, hsmall, Nat.ofDigits,
          (digitToChar_facts n hsmall).2]
    · have hdiv : n / 10 < fuel := by
        have hlt := Nat.div_lt_self (by omega : 0 < n) (by norm_num : 1 < 10)
        omega
      obtain ⟨ihne, ihall, ihval⟩ := ih (n / 10) hdiv
      have hmod : n % 10 < 10 := Nat.mod_lt _ (by norm_num)
      refine ⟨by simp [natToStrGo, hsmall], ?_, ?_⟩
      · simp [natToStrGo, hsmall, List.all_append, ihall,
          (digitToChar_facts (n % 10) hmod).1]
      · simp only [natToStrGo, if_neg hsmall, List.map_append, List.map_cons,
          List.map_nil, List.reverse_append, List.reverse_cons, List.reverse_nil,
          List.nil_append, List.cons_append, Nat.ofDigits_cons, ihval,
          (digitToChar_facts (n % 10) hmod).2]
        omega

theorem parseNat_natToStr (n : Nat) : parseNat (natToStr n) = some n := by
  obtain ⟨hne, hall, hval⟩ := natToStrGo_spec (n + 1) n (by omega)
  simp only [natToStr, parseNat, hval]
  rw [if_pos ⟨hne, hall⟩]

theorem natToStr_chars {n : Nat} {c : Char} (hc : c ∈ natToStr n) :
    48 ≤ c.toNat ∧ c.toNat ≤ 57 := by
  obtain ⟨_, hall, _⟩ := natToStrGo_spec (n + 1) n (by omega)
  have := List.all_eq_true.mp hall c hc
  simpa [isDigitChar] using this

theorem parseInt_intToStr (i : Int) : parseInt (intToStr i) = some i := by
  by_cases hneg : i < 0
  · have : intToStr i = '-' :: natToStr i.natAbs := by simp [intToStr, hneg]
    rw [this]
    simp only [parseInt, if_pos rfl, parseNat_natToStr, Option.map_some']
    refine congrArg some ?_
    show -((i.natAbs : Nat) : Int) = i
    omega
  · have hrw : intToStr i = natToStr i.toNat := by simp [intToStr, hneg]
    rw [hrw]
    rcases hshape : natToStr i.toNat with _ | ⟨c, cs⟩
    · obtain ⟨hne, _, _⟩ := natToStrGo_spec (i.toNat + 1) i.toNat (by omega)
      exact absurd hshape hne
    · have hcmem : c ∈ natToStr i.toNat := by rw [hshape]; exact List.mem_cons_self c cs
      have hdig := natToStr_chars hcmem
      have hcm : ¬ c = '-' := by
        intro hcc; subst hcc; revert hdig; decide
      have hcp : ¬ c = '+' := by
        intro hcc; subst hcc; revert hdig; decide
      simp only [parseInt, if_neg hcm, if_neg hcp, ← hshape, parseNat_natToStr,
        Option.map_some']
      refine congrArg some ?_
      show ((i.toNat : Nat) : Int) = i
      omega

theorem pipe_not_mem_intToStr (i : Int) : '|' ∉ intToStr i := by
  intro hm
  by_cases hneg : i < 0
  · rw [show intToStr i = '-' :: natToStr i.natAbs by simp [intToStr, hneg]] at hm
    rcases List.mem_cons.mp hm with h | h
    · exact absurd h (by decide)
    · have := natToStr_chars h
      revert this; decide
  · rw [show intToStr i = natToStr i.toNat by simp [intToStr, hneg]] at hm
    have := natToStr_chars hm
    revert this; decide

/-!
## Claim C6: token codec round trip
-/

/-- Claim C6 (amended at the expiry boundary): for delimiter-free claim
fields and any expiry, decoding an encoded token returns the original
fields with ok when the current time is at or before the expiry, and
not-ok when the current time is strictly after it (the code rejects on
now > exp, so at now = exp the token still validates); decoding also
rejects any token whose recomputed mac does not match the decoded
signature and any token that does not split into exactly two dot-separated
parts.  The base64url collaborator pair is assumed to round-trip on the
two segments and to emit no dot. -/
theorem claim_C6_roundtrip (enc dec mac : Str → Str) (email org : Str)
    (expUnix now : Int) (payload : Str)
    (hpay : payload = email ++ '|' :: org ++ '|' :: intToStr expUnix)
    (hde : dec (enc payload) = payload)
    (hds : dec (enc (mac payload)) = mac payload)
    (hdp : '.' ∉ enc payload)
    (hdm : '.' ∉ enc (mac payload))
    (he : '|' ∉ email) (ho : '|' ∉ org) :
    (now ≤ expUnix →
      ValidateSignupToken dec mac now (GenerateSignupToken enc mac email org expUnix) =
        some (email, org)) ∧
    (now > expUnix →
      ValidateSignupToken dec mac now (GenerateSignupToken enc mac email org expUnix) =
        none) ∧
    (∀ token p0 p1, goSplit '.' token = [p0, p1] → ¬ mac (dec p0) = dec p1 →
      ValidateSignupToken dec mac now token = none) ∧
    (∀ token, ¬ (goSplit '.' token).length = 2 →
      ValidateSignupToken dec mac now token = none) := by
  have hsplitTok : goSplit '.' (GenerateSignupToken enc mac email org expUnix) =
      [enc payload, enc (mac payload)] := by
    simp only [GenerateSignupToken, ← hpay]
    rw [goSplit_append_sep _ hdp, goSplit_no_sep hdm]
  have hsplitPay : goSplit '|' payload = [email, org, intToStr expUnix] := by
    have hpay2 : payload = email ++ '|' :: (org ++ '|' :: intToStr expUnix) := by
      simpa using hpay
    rw [hpay2, goSplit_append_sep _ he, goSplit_append_sep _ ho,
      goSplit_no_sep (pipe_not_mem_intToStr expUnix)]
  refine ⟨?_, ?_, ?_, ?_⟩
  · intro hle
    simp [ValidateSignupToken, hsplitTok, hde, hds, hsplitPay,
      parseInt_intToStr, show ¬ now > expUnix by omega]
  · intro hgt
    simp [ValidateSignupToken, hsplitTok, hde, hds, hsplitPay,
      parseInt_intToStr, hgt]
  · intro token p0 p1 hsp hmac
    simp [ValidateSignupToken, hsp, hmac]
  · intro token hlen
    rcases hsp : goSplit '.' token with _ | ⟨p0, rest⟩
    · simp [ValidateSignupToken, hsp]
    · rcases rest with _ | ⟨p1, rest2⟩
      · simp [ValidateSignupToken, hsp]
      · rcases rest2 with _ | ⟨p2, rest3⟩
        · rw [hsp] at hlen; simp at hlen
        · simp [ValidateSignupToken, hsp]

/-- Witness for claim C6 with the identity standing in for the base64url
pair and for the keyed mac: fields a and b, expiry 5, current time 4. -/
theorem claim_C6_roundtrip_witness :
    ((4 : Int) ≤ 5 →
      ValidateSignupToken id id 4 (GenerateSignupToken id id "a".toList "b".toList 5) =
        some ("a".toList, "b".toList)) ∧
    ((4 : Int) > 5 →
      ValidateSignupToken id id 4 (GenerateSignupToken id id "a".toList "b".toList 5) =
        none) ∧
    (∀ token p0 p1, goSplit '.' token = [p0, p1] → ¬ id (id p0) = id p1 →
      ValidateSignupToken id id 4 token = none) ∧
    (∀ token, ¬ (goSplit '.' token).length = 2 →
      ValidateSignupToken id id 4 token = none) :=
  claim_C6_roundtrip id id id "a".toList "b".toList 5 4
    ("a".toList ++ '|' :: "b".toList ++ '|' :: intToStr 5) rfl rfl rfl
    (by decide) (by decide) (by decide) (by decide)

/-- Counterexample to claim C6 as stated: at a current time exactly equal
to the expiry the decoder still accepts the token (the code rejects only
when now > exp), while the claim requires rejection at or after the
expiry. -/
theorem claim_C6_counterexample :
    ValidateSignupToken id id 5 (GenerateSignupToken id id "a".toList "b".toList 5) =
      some ("a".toList, "b".toList) := by decide

/-!
## Claims C1 and C2: middleware chain order and the tenant-binding check
-/

/-- Claim C1 fails on the code: the example/main.go chain wraps handlers
as Logger(CSRF(Session(Tenant(Lang(mux))))), so at request time the
stages execute csrf, then session, then tenant resolution — the reverse
of the claimed tenant → session → csrf order.  Evaluated here on a plain
GET to a tenant host that passes every stage. -/
theorem claim_C1_pipeline_order :
    stagesOf (runChain "example.com".toList "app_session".toList "en".toList
      ["en".toList]
      ⟨[], [], [],
        [⟨1, "Acme".toList, "acme".toList, "acme".toList, "a@x".toList, true, true, false⟩],
        [], [], 1, 2⟩
      0 (some "g".toList) true
      ⟨"GET".toList, "acme.example.com".toList, [], [], []⟩).1 =
    [Stage.logger, Stage.csrf, Stage.session, Stage.tenant, Stage.lang] := by
  decide

/-- Claim C2 fails on the code: a request to tenant b carrying a session
bound to tenant a is not treated as invalid — because the session stage
runs before tenant resolution, the binding check sees no tenant, the
user is attached as authenticated, and no cookie-clearing Set-Cookie is
issued.  The full trace is computed: the handler receives the
tenant-a-bound user together with tenant b in its context. -/
theorem claim_C2_tenant_binding :
    runChain "example.com".toList "app_session".toList "en".toList ["en".toList]
      ⟨[], [],
        [⟨10, "u@x".toList, "h".toList, true, 1, "member".toList⟩],
        [⟨1, "A".toList, "a".toList, "a".toList, "a@x".toList, true, true, false⟩,
         ⟨2, "B".toList, "b".toList, "b".toList, "b@x".toList, true, true, false⟩],
        [], [⟨"tok".toList, 10, 1, 100⟩], 11, 3⟩
      0 (some "g".toList) true
      ⟨"GET".toList, "b.example.com".toList,
        [("app_session".toList, "tok".toList)], [], []⟩ =
    ([Event.stage .logger,
      Event.stage .csrf,
      Event.setCookie "csrf_token".toList "g".toList 0,
      Event.stage .session,
      Event.stage .tenant,
      Event.stage .lang,
      Event.handler ⟨some "g".toList, some ⟨2, "b".toList, "B".toList⟩, some true,
        some 10, some ⟨10, "u@x".toList, "h".toList, true, 1, "member".toList⟩,
        some "en".toList⟩], none) := by
  decide

/-!
## Claim C3: confirm transaction atomicity
-/

/-- The user-signup branch commits only on its consuming outcomes: when
it answers with the internal or invalid-token rejection the deferred
rollback leaves the store untouched. -/
theorem confirmUserBranch_nonconsuming (sched : Sched) (st : DB) (token : Str)
    (ct : Option Tenant) (p : PendingUser) :
    ((confirmUserBranch sched st token ct p).1 = .internal ∨
     (confirmUserBranch sched st token ct p).1 = .invalidToken ∨
     (confirmUserBranch sched st token ct p).1 = .missingToken) →
    (confirmUserBranch sched st token ct p).2 = st := by
  unfold confirmUserBranch
  repeat' (first | dsimp only | split)
  all_goals intro h
  all_goals
    first
    | rfl
    | (rcases h with h | h | h <;> simp at h)

/-- The tenant-signup branch commits only on its consuming outcomes. -/
theorem confirmTenantBranch_nonconsuming (sched : Sched) (st : DB) (token : Str)
    (p : PendingTenant) :
    ((confirmTenantBranch sched st token p).1 = .internal ∨
     (confirmTenantBranch sched st token p).1 = .invalidToken ∨
     (confirmTenantBranch sched st token p).1 = .missingToken) →
    (confirmTenantBranch sched st token p).2 = st := by
  unfold confirmTenantBranch
  repeat' (first | dsimp only | split)
  all_goals intro h
  all_goals
    first
    | rfl
    | (rcases h with h | h | h <;> simp at h)

/-- Counterexample to claim C3 as stated: when the DELETE of the consumed
pending-signup row fails inside the confirm transaction, the code only
logs the error and commits anyway — the outcome is success rather than
the internal-error rejection, the inserted user and membership rows
persist, and the pending row survives alongside the new account. -/
theorem claim_C3_counterexample :
    ConfirmHandler
      (fun op => if op = ConfirmOp.delPendingUser then some StoreErr.otherErr else none)
      ⟨[⟨"tok".toList, "e@x".toList, 2, "h".toList, 100⟩], [], [], [], [], [], 10, 5⟩
      0 "tok".toList true (some ⟨2, "b".toList, "B".toList⟩) =
    (.successUser,
      ⟨[⟨"tok".toList, "e@x".toList, 2, "h".toList, 100⟩], [],
       [⟨10, "e@x".toList, "h".toList, true, 2, "member".toList⟩], [],
       [⟨10, 2, "member".toList, true⟩], [], 11, 5⟩) := by
  decide

/-- Claim C3 (amended): all row mutations of confirm happen inside one
transaction and every rejection that does not consume the token
(internal error, invalid token, missing token) leaves the store exactly
as it was — full rollback, pending row intact.  The one exception the
code makes is the final pending-row DELETE: when only that statement
fails, the failure is merely logged, the transaction still commits, and
confirm reports success with the user and membership inserted and the
pending row still present. -/
theorem claim_C3_amended :
    (∀ (sched : Sched) (st : DB) (now : Int) (token : Str) (itr : Bool)
        (ct : Option Tenant),
      ((ConfirmHandler sched st now token itr ct).1 = .internal ∨
       (ConfirmHandler sched st now token itr ct).1 = .invalidToken ∨
       (ConfirmHandler sched st now token itr ct).1 = .missingToken) →
      (ConfirmHandler sched st now token itr ct).2 = st) ∧
    (∀ (st : DB) (now : Int) (token : Str) (p : PendingUser) (t : Tenant)
        (e : StoreErr),
      ¬ token = [] →
      st.pendingUsers.find? (fun q => q.token == token && decide (q.expiresAt > now)) =
        some p →
      t.id = p.tenantId →
      st.users.find? (fun u => u.email == p.email) = none →
      ConfirmHandler (fun op => if op = ConfirmOp.delPendingUser then some e else none)
          st now token true (some t) =
        (.successUser,
          { st with
            users := st.users ++
              [⟨st.nextUserId, p.email, p.passwordHash, true, p.tenantId,
                "member".toList⟩],
            memberships := st.memberships ++
              [⟨st.nextUserId, p.tenantId, "member".toList, true⟩],
            nextUserId := st.nextUserId + 1 })) := by
  constructor
  · intro sched st now token itr ct
    unfold ConfirmHandler
    repeat' (first | dsimp only | split)
    all_goals intro h
    all_goals
      first
      | rfl
      | exact confirmUserBranch_nonconsuming _ _ _ _ _ h
      | exact confirmTenantBranch_nonconsuming _ _ _ _ h
  · intro st now token p t e htok hfind hten hdup
    simp [ConfirmHandler, confirmUserBranch, qRes, htok, hfind, hten, hdup]

/-- Witness for claim C3 as amended: the rollback clause evaluated on an
unknown token against an empty store, and the delete-failure clause on a
one-row pending table. -/
theorem claim_C3_amended_witness :
    (ConfirmHandler cleanSched ⟨[], [], [], [], [], [], 1, 1⟩ 0 "x".toList true none).2 =
      ⟨[], [], [], [], [], [], 1, 1⟩ ∧
    ConfirmHandler
        (fun op => if op = ConfirmOp.delPendingUser then some StoreErr.otherErr else none)
        ⟨[⟨"tk".toList, "a@x".toList, 7, "hh".toList, 50⟩], [], [], [], [], [], 20, 4⟩
        0 "tk".toList true (some ⟨7, "t".toList, "T".toList⟩) =
      (.successUser,
        { (⟨[⟨"tk".toList, "a@x".toList, 7, "hh".toList, 50⟩], [], [], [], [], [], 20, 4⟩ : DB) with
          users := [] ++ [⟨20, "a@x".toList, "hh".toList, true, 7, "member".toList⟩],
          memberships := [] ++ [⟨20, 7, "member".toList, true⟩],
          nextUserId := 20 + 1 }) :=
  ⟨claim_C3_amended.1 cleanSched ⟨[], [], [], [], [], [], 1, 1⟩ 0 "x".toList true none
      (by decide),
   claim_C3_amended.2 ⟨[⟨"tk".toList, "a@x".toList, 7, "hh".toList, 50⟩], [], [], [], [], [], 20, 4⟩
      0 "tk".toList ⟨"tk".toList, "a@x".toList, 7, "hh".toList, 50⟩
      ⟨7, "t".toList, "T".toList⟩ StoreErr.otherErr
      (by decide) (by decide) (by decide) (by decide)⟩

/-!
## Claim C4: token replay after consumption
-/

/-- After the consuming DELETE, no pending-user row with the consumed
token can be found again, whatever the expiry cutoff. -/
theorem find?_pendingUser_filter (l : List PendingUser) (token : Str) (now : Int) :
    (l.filter (fun q => ¬ q.token == token)).find?
      (fun q => q.token == token && decide (q.expiresAt > now)) = none := by
  rw [List.find?_eq_none]
  intro x hx
  have hmem := (List.mem_filter.mp hx).2
  simp only [Bool.and_eq_true, beq_iff_eq, decide_eq_true_eq, not_and]
  intro hx2
  simp [hx2] at hmem

/-- A token matching no pending-tenant row at all matches none under the
expiry-filtered lookup either. -/
theorem find?_pendingTenant_weaken (l : List PendingTenant) (token : Str) (now : Int)
    (h : l.find? (fun q => q.token == token) = none) :
    l.find? (fun q => q.token == token && decide (q.expiresAt > now)) = none := by
  rw [List.find?_eq_none] at h ⊢
  intro x hx
  have hx2 := h x hx
  simp only [Bool.and_eq_true, beq_iff_eq, decide_eq_true_eq, not_and]
  intro hx3
  simp [hx3] at hx2

/-- A confirm call whose token matches no pending row in either table
renders the invalid-token rejection and leaves the store unchanged. -/
theorem confirm_no_match (st : DB) (now : Int) (token : Str) (itr : Bool)
    (ct : Option Tenant) (htok : ¬ token = [])
    (h1 : st.pendingUsers.find?
      (fun q => q.token == token && decide (q.expiresAt > now)) = none)
    (h2 : st.pendingTenants.find?
      (fun q => q.token == token && decide (q.expiresAt > now)) = none) :
    ConfirmHandler cleanSched st now token itr ct = (.invalidToken, st) := by
  simp [ConfirmHandler, cleanSched, qRes, htok, h1, h2]

/-- A token matching no pending-user row at all matches none under the
expiry-filtered lookup either. -/
theorem find?_pendingUser_weaken (l : List PendingUser) (token : Str) (now : Int)
    (h : l.find? (fun q => q.token == token) = none) :
    l.find? (fun q => q.token == token && decide (q.expiresAt > now)) = none := by
  rw [List.find?_eq_none] at h ⊢
  intro x hx
  have hx2 := h x hx
  simp only [Bool.and_eq_true, beq_iff_eq, decide_eq_true_eq, not_and]
  intro hx3
  simp [hx3] at hx2

/-- After the consuming DELETE, no pending-tenant row with the consumed
token can be found again, whatever the expiry cutoff. -/
theorem find?_pendingTenant_filter (l : List PendingTenant) (token : Str) (now : Int) :
    (l.filter (fun q => ¬ q.token == token)).find?
      (fun q => q.token == token && decide (q.expiresAt > now)) = none := by
  rw [List.find?_eq_none]
  intro x hx
  have hmem := (List.mem_filter.mp hx).2
  simp only [Bool.and_eq_true, beq_iff_eq, decide_eq_true_eq, not_and]
  intro hx2
  simp [hx2] at hmem

/-- A hit of the expiry-filtered pending-user lookup is in particular a
hit of the token-only lookup. -/
theorem find?_pendingUser_token_hit {l : List PendingUser} {token : Str} {now : Int}
    {p : PendingUser}
    (h : l.find? (fun q => q.token == token && decide (q.expiresAt > now)) = some p) :
    ¬ l.find? (fun q => q.token == token) = none := by
  intro hn
  rw [List.find?_eq_none] at hn
  have hmem := List.mem_of_find?_eq_some h
  have hpred := List.find?_some h
  simp only [Bool.and_eq_true, beq_iff_eq, decide_eq_true_eq] at hpred
  exact absurd (by simp [hpred.1]) (hn p hmem)

/-- A hit of the expiry-filtered pending-tenant lookup is in particular a
hit of the token-only lookup. -/
theorem find?_pendingTenant_token_hit {l : List PendingTenant} {token : Str}
    {now : Int} {p : PendingTenant}
    (h : l.find? (fun q => q.token == token && decide (q.expiresAt > now)) = some p) :
    ¬ l.find? (fun q => q.token == token) = none := by
  intro hn
  rw [List.find?_eq_none] at hn
  have hmem := List.mem_of_find?_eq_some h
  have hpred := List.find?_some h
  simp only [Bool.and_eq_true, beq_iff_eq, decide_eq_true_eq] at hpred
  exact absurd (by simp [hpred.1]) (hn p hmem)

/-- Under a healthy store the user-signup branch either answers
invalid-token leaving the store untouched, or consumes the row: its
final state then has the pending-user rows filtered of the token and the
pending-tenant rows unchanged — on the success path and on the
already-registered rejection alike. -/
theorem confirmUserBranch_clean (st : DB) (token : Str) (ct : Option Tenant)
    (p : PendingUser) :
    confirmUserBranch cleanSched st token ct p = (.invalidToken, st) ∨
    ((confirmUserBranch cleanSched st token ct p).2.pendingUsers =
        st.pendingUsers.filter (fun q => ¬ q.token == token) ∧
      (confirmUserBranch cleanSched st token ct p).2.pendingTenants =
        st.pendingTenants) := by
  rcases ct with _ | t
  · left
    simp [confirmUserBranch]
  · by_cases ht : t.id = p.tenantId
    · rcases hdup : st.users.find? (fun u => u.email == p.email) with _ | v
      · right
        constructor <;> simp [confirmUserBranch, qRes, cleanSched, ht, hdup]
      · right
        constructor <;> simp [confirmUserBranch, qRes, cleanSched, ht, hdup]
    · left
      simp [confirmUserBranch, ht]

/-- Under a healthy store the tenant-signup branch always consumes the
row: whatever the outcome (success, already-registered, or
subdomain-exists), the final state keeps the pending-user rows unchanged
and filters the token out of the pending-tenant rows. -/
theorem confirmTenantBranch_clean (st : DB) (token : Str) (p : PendingTenant) :
    (confirmTenantBranch cleanSched st token p).2.pendingUsers = st.pendingUsers ∧
    (confirmTenantBranch cleanSched st token p).2.pendingTenants =
      st.pendingTenants.filter (fun q => ¬ q.token == token) := by
  rcases hdup : st.users.find? (fun u => u.email == p.email) with _ | v
  · rcases hsub : st.tenants.find?
        (fun t => t.subdomain == goToLower (goDropChar ' ' p.orgName)) with _ | w
    · constructor <;> simp [confirmTenantBranch, qRes, cleanSched, hdup, hsub]
    · constructor <;> simp [confirmTenantBranch, qRes, cleanSched, hdup, hsub]
  · constructor <;> simp [confirmTenantBranch, qRes, cleanSched, hdup]

/-- Claim C4: a consumed token never confirms again.  Whenever a
healthy-store confirm call — on either domain kind, so for user-signup
and tenant-signup tokens alike — ends in a consuming outcome (success,
or the already-registered / subdomain-taken business rejections, all of
which delete the pending row inside the same transaction), every later
confirm call with the same token, at any time, on any domain, with any
context tenant, returns the lookup-miss rejection (rendered with the
invalid-token message, the spec's not-found outcome) and leaves the
store unchanged: no tenant, user, or membership rows are inserted.  The
side condition says the token sits in at most one of the two pending
tables, which the random per-intent token generation guarantees. -/
theorem claim_C4_replay (st : DB) (now : Int) (token : Str) (itr : Bool)
    (ct : Option Tenant)
    (htok : ¬ token = [])
    (hone : st.pendingUsers.find? (fun q => q.token == token) = none ∨
      st.pendingTenants.find? (fun q => q.token == token) = none)
    (hcons : (ConfirmHandler cleanSched st now token itr ct).1 = .successUser ∨
      (ConfirmHandler cleanSched st now token itr ct).1 = .successTenant ∨
      (ConfirmHandler cleanSched st now token itr ct).1 = .alreadyRegistered ∨
      (ConfirmHandler cleanSched st now token itr ct).1 = .subdomainExists) :
    ∀ (now2 : Int) (itr2 : Bool) (ct2 : Option Tenant),
      ConfirmHandler cleanSched ((ConfirmHandler cleanSched st now token itr ct).2)
          now2 token itr2 ct2 =
        (.invalidToken, (ConfirmHandler cleanSched st now token itr ct).2) := by
  intro now2 itr2 ct2
  rcases hpu : st.pendingUsers.find?
      (fun q => q.token == token && decide (q.expiresAt > now)) with _ | p
  · rcases hpt : st.pendingTenants.find?
        (fun q => q.token == token && decide (q.expiresAt > now)) with _ | q
    · rw [confirm_no_match st now token itr ct htok hpu hpt] at hcons
      rcases hcons with h | h | h | h <;> simp at h
    · have hpuTok : st.pendingUsers.find? (fun r => r.token == token) = none :=
        hone.resolve_right (find?_pendingTenant_token_hit hpt)
      cases itr with
      | true =>
        have hfirst : ConfirmHandler cleanSched st now token true ct =
            (.invalidToken, st) := by
          simp [ConfirmHandler, cleanSched, qRes, htok, hpu, hpt]
        rw [hfirst] at hcons
        rcases hcons with h | h | h | h <;> simp at h
      | false =>
        have hfirst : ConfirmHandler cleanSched st now token false ct =
            confirmTenantBranch cleanSched st token q := by
          simp [ConfirmHandler, cleanSched, qRes, htok, hpu, hpt]
        rw [hfirst]
        obtain ⟨hA, hB⟩ := confirmTenantBranch_clean st token q
        refine confirm_no_match _ now2 token itr2 ct2 htok ?_ ?_
        · rw [hA]
          exact find?_pendingUser_weaken _ _ _ hpuTok
        · rw [hB]
          exact find?_pendingTenant_filter _ _ _
  · have hptTok : st.pendingTenants.find? (fun r => r.token == token) = none :=
      hone.resolve_left (find?_pendingUser_token_hit hpu)
    cases itr with
    | false =>
      have hfirst : ConfirmHandler cleanSched st now token false ct =
          (.invalidToken, st) := by
        simp [ConfirmHandler, cleanSched, qRes, htok, hpu]
      rw [hfirst] at hcons
      rcases hcons with h | h | h | h <;> simp at h
    | true =>
      have hfirst : ConfirmHandler cleanSched st now token true ct =
          confirmUserBranch cleanSched st token ct p := by
        simp [ConfirmHandler, cleanSched, qRes, htok, hpu]
      rw [hfirst] at hcons ⊢
      rcases confirmUserBranch_clean st token ct p with hinv | ⟨hA, hB⟩
      · rw [hinv] at hcons
        rcases hcons with h | h | h | h <;> simp at h
      · refine confirm_no_match _ now2 token itr2 ct2 htok ?_ ?_
        · rw [hA]
          exact find?_pendingUser_filter _ _ _
        · rw [hB]
          exact find?_pendingTenant_weaken _ _ _ hptTok

/-- Witness for claim C4, applied twice: once to the spec scenario of a
tenant-signup confirmation (organization Acme Inc on the marketing
domain) whose replay misses, and once to a user-signup call consumed by
the already-registered business rejection whose replay also misses. -/
theorem claim_C4_replay_witness :
    (∀ (now2 : Int) (itr2 : Bool) (ct2 : Option Tenant),
      ConfirmHandler cleanSched
          ((ConfirmHandler cleanSched
            ⟨[], [⟨"tk".toList, "e@x".toList, "Acme Inc".toList, "h".toList, 100⟩],
              [], [], [], [], 1, 1⟩
            0 "tk".toList false none).2) now2 "tk".toList itr2 ct2 =
        (.invalidToken,
          (ConfirmHandler cleanSched
            ⟨[], [⟨"tk".toList, "e@x".toList, "Acme Inc".toList, "h".toList, 100⟩],
              [], [], [], [], 1, 1⟩
            0 "tk".toList false none).2)) ∧
    (∀ (now2 : Int) (itr2 : Bool) (ct2 : Option Tenant),
      ConfirmHandler cleanSched
          ((ConfirmHandler cleanSched
            ⟨[⟨"tk2".toList, "e@x".toList, 2, "h".toList, 100⟩], [],
              [⟨5, "e@x".toList, "h0".toList, true, 1, "member".toList⟩],
              [], [], [], 6, 3⟩
            0 "tk2".toList true (some ⟨2, "b".toList, "B".toList⟩)).2) now2
          "tk2".toList itr2 ct2 =
        (.invalidToken,
          (ConfirmHandler cleanSched
            ⟨[⟨"tk2".toList, "e@x".toList, 2, "h".toList, 100⟩], [],
              [⟨5, "e@x".toList, "h0".toList, true, 1, "member".toList⟩],
              [], [], [], 6, 3⟩
            0 "tk2".toList true (some ⟨2, "b".toList, "B".toList⟩)).2)) :=
  ⟨claim_C4_replay
      ⟨[], [⟨"tk".toList, "e@x".toList, "Acme Inc".toList, "h".toList, 100⟩],
        [], [], [], [], 1, 1⟩
      0 "tk".toList false none (by decide) (Or.inl (by decide))
      (Or.inr (Or.inl (by decide))),
   claim_C4_replay
      ⟨[⟨"tk2".toList, "e@x".toList, 2, "h".toList, 100⟩], [],
        [⟨5, "e@x".toList, "h0".toList, true, 1, "member".toList⟩],
        [], [], [], 6, 3⟩
      0 "tk2".toList true (some ⟨2, "b".toList, "B".toList⟩) (by decide)
      (Or.inr (by decide)) (Or.inr (Or.inr (Or.inl (by decide))))⟩

/-!
## Claim C5: uniqueness violations during the confirm inserts
-/

/-- Counterexample to claim C5: when the tenant INSERT inside the confirm
transaction fails with a store uniqueness-constraint violation (a slug
race lost after the SELECT pre-check passed), confirm answers with the
generic internal rejection, not with the subdomain-taken business
rejection the claim requires. -/
theorem claim_C5_counterexample :
    ConfirmHandler
      (fun op => if op = ConfirmOp.insTenant then some StoreErr.uniqueViolation else none)
      ⟨[], [⟨"tk".toList, "e@x".toList, "Acme Inc".toList, "h".toList, 100⟩],
        [], [], [], [], 1, 1⟩
      0 "tk".toList false none =
    (.internal,
      ⟨[], [⟨"tk".toList, "e@x".toList, "Acme Inc".toList, "h".toList, 100⟩],
        [], [], [], [], 1, 1⟩) := by
  decide

/-- Claim C5 (amended): confirm does not inspect the kind of a failed
insert at all — a uniqueness-constraint violation on the tenant or user
INSERT is handled exactly like any other store error, producing the
internal rejection with full rollback, for either violation kind; the
subdomain-taken and already-registered rejections are produced only by
the SELECT pre-checks that run before the inserts. -/
theorem claim_C5_amended :
    (∀ (st : DB) (now : Int) (token : Str) (p : PendingTenant) (ct : Option Tenant)
        (e : StoreErr),
      ¬ token = [] →
      st.pendingUsers.find?
        (fun q => q.token == token && decide (q.expiresAt > now)) = none →
      st.pendingTenants.find?
        (fun q => q.token == token && decide (q.expiresAt > now)) = some p →
      st.users.find? (fun u => u.email == p.email) = none →
      st.tenants.find?
        (fun t => t.subdomain == goToLower (goDropChar ' ' p.orgName)) = none →
      ConfirmHandler (fun op => if op = ConfirmOp.insTenant then some e else none)
        st now token false ct = (.internal, st)) ∧
    (∀ (st : DB) (now : Int) (token : Str) (p : PendingUser) (t : Tenant)
        (e : StoreErr),
      ¬ token = [] →
      st.pendingUsers.find?
        (fun q => q.token == token && decide (q.expiresAt > now)) = some p →
      t.id = p.tenantId →
      st.users.find? (fun u => u.email == p.email) = none →
      ConfirmHandler (fun op => if op = ConfirmOp.insUser then some e else none)
        st now token true (some t) = (.internal, st)) := by
  constructor
  · intro st now token p ct e htok hpu hpt hdup hsub
    simp [ConfirmHandler, confirmTenantBranch, qRes, htok, hpu, hpt, hdup, hsub]
  · intro st now token p t e htok hfind hten hdup
    simp [ConfirmHandler, confirmUserBranch, qRes, htok, hfind, hten, hdup]

/-- Witness for claim C5 as amended, with the uniqueness-violation fault
injected into each insert. -/
theorem claim_C5_amended_witness :
    ConfirmHandler
        (fun op => if op = ConfirmOp.insTenant then some StoreErr.uniqueViolation else none)
        ⟨[], [⟨"t2".toList, "f@x".toList, "Org".toList, "h2".toList, 90⟩],
          [], [], [], [], 1, 1⟩
        0 "t2".toList false none =
      (.internal,
        ⟨[], [⟨"t2".toList, "f@x".toList, "Org".toList, "h2".toList, 90⟩],
          [], [], [], [], 1, 1⟩) ∧
    ConfirmHandler
        (fun op => if op = ConfirmOp.insUser then some StoreErr.uniqueViolation else none)
        ⟨[⟨"t3".toList, "g@x".toList, 4, "h3".toList, 90⟩], [], [], [], [], [], 1, 1⟩
        0 "t3".toList true (some ⟨4, "s".toList, "S".toList⟩) =
      (.internal,
        ⟨[⟨"t3".toList, "g@x".toList, 4, "h3".toList, 90⟩], [], [], [], [], [], 1, 1⟩) :=
  ⟨claim_C5_amended.1
      ⟨[], [⟨"t2".toList, "f@x".toList, "Org".toList, "h2".toList, 90⟩],
        [], [], [], [], 1, 1⟩
      0 "t2".toList ⟨"t2".toList, "f@x".toList, "Org".toList, "h2".toList, 90⟩ none
      StoreErr.uniqueViolation (by decide) (by decide) (by decide) (by decide) (by decide),
   claim_C5_amended.2
      ⟨[⟨"t3".toList, "g@x".toList, 4, "h3".toList, 90⟩], [], [], [], [], [], 1, 1⟩
      0 "t3".toList ⟨"t3".toList, "g@x".toList, 4, "h3".toList, 90⟩
      ⟨4, "s".toList, "S".toList⟩ StoreErr.uniqueViolation
      (by decide) (by decide) (by decide) (by decide)⟩

/-!
## Claim C8: CSRF token sources
-/

/-- Counterexample to claim C8: a POST carrying the correct CSRF value
only in the X-CSRF-Token request header (matching the cookie) is
rejected with 403 because the middleware reads the submitted token
exclusively from the parsed form field csrf_token. -/
theorem claim_C8_counterexample :
    CSRFMiddleware (some "g".toList) true appHandler Ctx.empty
      ⟨"POST".toList, "acme.example.com".toList,
        [("csrf_token".toList, "abc".toList)],
        [("X-CSRF-Token".toList, "abc".toList)], []⟩ [] =
    ([Event.stage .csrf], some 403) := by
  decide

/-- Claim C8 (amended): for state-changing methods (POST, PUT, DELETE)
with a nonempty cookie-held token, the middleware accepts the submitted
token only from the form field csrf_token: a missing form value is a 403
even when an equivalent header is present, a mismatching form value is a
403, and a matching form value passes regardless of any headers. -/
theorem claim_C8_amended (genToken : Option Str) (next : Handler) (ctx : Ctx)
    (req : Request) (evs : List Event) (t : Str)
    (hck : lookupCookie req "csrf_token".toList = some t)
    (ht : ¬ t = [])
    (hm : req.method = "POST".toList ∨ req.method = "PUT".toList ∨
      req.method = "DELETE".toList) :
    (formValue req "csrf_token".toList = [] →
      CSRFMiddleware genToken true next ctx req evs =
        (evs ++ [.stage .csrf], some 403)) ∧
    (∀ ft, formValue req "csrf_token".toList = ft → ¬ ft = [] → ¬ ft = t →
      CSRFMiddleware genToken true next ctx req evs =
        (evs ++ [.stage .csrf], some 403)) ∧
    (formValue req "csrf_token".toList = t →
      CSRFMiddleware genToken true next ctx req evs =
        next { ctx with csrf := some t } req (evs ++ [.stage .csrf])) := by
  have hred : (if lookupCookie req "csrf_token".toList = none ∨
      lookupCookie req "csrf_token".toList = some [] then (none : Option Str)
    else lookupCookie req "csrf_token".toList) = some t := by
    rw [hck]; simp [ht]
  refine ⟨?_, ?_, ?_⟩
  · intro hf
    simp only [CSRFMiddleware, hred]
    rw [if_pos hm, hf]
    simp
  · intro ft hf hne hneq
    simp only [CSRFMiddleware, hred]
    rw [if_pos hm, hf]
    have htf : ¬ t = ft := fun h => hneq h.symm
    simp [hne, htf]
  · intro hf
    simp only [CSRFMiddleware, hred]
    rw [if_pos hm, hf]
    simp [ht]

/-- Witness for claim C8 as amended: a POST whose form carries the
cookie-held token; the pass clause fires and the middleware hands the
request on with the token in context. -/
theorem claim_C8_amended_witness :
    (formValue
        ⟨"POST".toList, "acme.example.com".toList,
          [("csrf_token".toList, "abc".toList)],
          [("X-CSRF-Token".toList, "zzz".toList)],
          [("csrf_token".toList, "abc".toList)]⟩ "csrf_token".toList = [] →
      CSRFMiddleware (some "g".toList) true appHandler Ctx.empty
          ⟨"POST".toList, "acme.example.com".toList,
            [("csrf_token".toList, "abc".toList)],
            [("X-CSRF-Token".toList, "zzz".toList)],
            [("csrf_token".toList, "abc".toList)]⟩ [] =
        ([] ++ [.stage .csrf], some 403)) ∧
    (∀ ft, formValue
        ⟨"POST".toList, "acme.example.com".toList,
          [("csrf_token".toList, "abc".toList)],
          [("X-CSRF-Token".toList, "zzz".toList)],
          [("csrf_token".toList, "abc".toList)]⟩ "csrf_token".toList = ft →
      ¬ ft = [] → ¬ ft = "abc".toList →
      CSRFMiddleware (some "g".toList) true appHandler Ctx.empty
          ⟨"POST".toList, "acme.example.com".toList,
            [("csrf_token".toList, "abc".toList)],
            [("X-CSRF-Token".toList, "zzz".toList)],
            [("csrf_token".toList, "abc".toList)]⟩ [] =
        ([] ++ [.stage .csrf], some 403)) ∧
    (formValue
        ⟨"POST".toList, "acme.example.com".toList,
          [("csrf_token".toList, "abc".toList)],
          [("X-CSRF-Token".toList, "zzz".toList)],
          [("csrf_token".toList, "abc".toList)]⟩ "csrf_token".toList = "abc".toList →
      CSRFMiddleware (some "g".toList) true appHandler Ctx.empty
          ⟨"POST".toList, "acme.example.com".toList,
            [("csrf_token".toList, "abc".toList)],
            [("X-CSRF-Token".toList, "zzz".toList)],
            [("csrf_token".toList, "abc".toList)]⟩ [] =
        appHandler { Ctx.empty with csrf := some "abc".toList }
          ⟨"POST".toList, "acme.example.com".toList,
            [("csrf_token".toList, "abc".toList)],
            [("X-CSRF-Token".toList, "zzz".toList)],
            [("csrf_token".toList, "abc".toList)]⟩ ([] ++ [.stage .csrf])) :=
  claim_C8_amended (some "g".toList) appHandler Ctx.empty
    ⟨"POST".toList, "acme.example.com".toList,
      [("csrf_token".toList, "abc".toList)],
      [("X-CSRF-Token".toList, "zzz".toList)],
      [("csrf_token".toList, "abc".toList)]⟩ [] "abc".toList
    (by decide) (by decide) (by decide)

/-!
## Claim C9: login session-creation store failure
-/

/-- Claim C9 fails on the code: when the session INSERT cannot persist
the new row during login, models.CreateSession merely logs the error and
still returns the generated token, and LoginHandler proceeds to set the
session cookie and issue the success redirect — no 5xx surfaces and the
store keeps no session row for the cookie that was handed out. -/
theorem claim_C9_login_swallows_store_error :
    LoginHandler "app_session".toList (fun h p => h == p) "tok".toList false true
      ⟨[], [],
        [⟨10, "alice@example.com".toList, "pw".toList, true, 1, "member".toList⟩],
        [], [], [], 11, 2⟩
      0 true (some ⟨1, "a".toList, "A".toList⟩) "POST".toList true
      " Alice@Example.com ".toList "pw".toList =
    (.loggedIn "app_session".toList "tok".toList,
      ⟨[], [],
        [⟨10, "alice@example.com".toList, "pw".toList, true, 1, "member".toList⟩],
        [], [], [], 11, 2⟩) := by
  decide

/-!
## Claim C10: duplicate-user check is tenant-blind
-/

/-- Claim C10: the duplicate check of the user-signup confirmation
matches on email alone — any user row with the pending email, bound to
any tenant whatsoever, makes confirm reject with already-registered and
consume the pending row, so email uniqueness is enforced globally across
tenants. -/
theorem claim_C10_email_check_global (st : DB) (now : Int) (token : Str)
    (p : PendingUser) (t : Tenant) (u : UserRow)
    (htok : ¬ token = [])
    (hfind : st.pendingUsers.find?
      (fun q => q.token == token && decide (q.expiresAt > now)) = some p)
    (hten : t.id = p.tenantId)
    (hmem : u ∈ st.users) (hemail : u.email = p.email) :
    ConfirmHandler cleanSched st now token true (some t) =
      (.alreadyRegistered,
        { st with pendingUsers := st.pendingUsers.filter (fun q => ¬ q.token == token) }) := by
  have hex : (st.users.find? (fun v => v.email == p.email)).isSome := by
    rw [List.find?_isSome]
    exact ⟨u, hmem, by simp [hemail]⟩
  obtain ⟨v, hv⟩ := Option.isSome_iff_exists.mp hex
  simp [ConfirmHandler, confirmUserBranch, qRes, cleanSched, htok, hfind, hten, hv]

/-- Witness for claim C10: the existing user with the pending email
belongs to tenant 1 while the confirmation is for tenant 2 — the
cross-tenant duplicate is still rejected as already-registered. -/
theorem claim_C10_email_check_global_witness :
    ConfirmHandler cleanSched
      ⟨[⟨"tk".toList, "e@x".toList, 2, "h".toList, 100⟩], [],
        [⟨5, "e@x".toList, "h0".toList, true, 1, "member".toList⟩],
        [], [], [], 6, 3⟩
      0 "tk".toList true (some ⟨2, "b".toList, "B".toList⟩) =
    (.alreadyRegistered,
      { (⟨[⟨"tk".toList, "e@x".toList, 2, "h".toList, 100⟩], [],
          [⟨5, "e@x".toList, "h0".toList, true, 1, "member".toList⟩],
          [], [], [], 6, 3⟩ : DB) with
        pendingUsers :=
          [⟨"tk".toList, "e@x".toList, 2, "h".toList, 100⟩].filter
            (fun q => ¬ q.token == "tk".toList) }) :=
  claim_C10_email_check_global
    ⟨[⟨"tk".toList, "e@x".toList, 2, "h".toList, 100⟩], [],
      [⟨5, "e@x".toList, "h0".toList, true, 1, "member".toList⟩],
      [], [], [], 6, 3⟩
    0 "tk".toList ⟨"tk".toList, "e@x".toList, 2, "h".toList, 100⟩
    ⟨2, "b".toList, "B".toList⟩
    ⟨5, "e@x".toList, "h0".toList, true, 1, "member".toList⟩
    (by decide) (by decide) (by decide) (by decide) (by decide)
